import Mathlib

/-!
Shallow embedding of the Idearia js-logger repository (src/logger.js).

The logger keeps an append-only array `this.log` of log entries, a
string-keyed collection `this.timeTracking` of active timers (implemented
in the source as a javascript `Array` used as a map, which matters: an
array always has an own property `length`), and formatting utilities
(`formatLogEntry`, `dumpToString`, the static `jsLogger.dateToString`).

Modelling conventions:
  - Javascript values stored in log-entry attributes are modelled by
    `JsValue`: defined, JSON-serialisable primitive values plus `Date`
    objects.  A `Date` carries `Option Int` — its time value in
    milliseconds since the epoch, `none` standing for an invalid date
    (`NaN` time value).  Exotic values (`undefined`, functions, symbols,
    nested objects) are outside the modelled universe.
  - Javascript numbers are modelled as exact integers and rationals; this
    is faithful to double arithmetic in the magnitude range the logger
    manipulates (millisecond counts well below 2^53).
  - The current clock reading (`Date.now()` / `new Date()`) and the local
    timezone offset (`getTimezoneOffset()`, in minutes) are passed as
    explicit parameters.
  - Code that can throw (`toISOString` on an invalid date, property access
    on `null`) returns `Except String α`, the `String` describing the
    javascript exception.
  - The real-time print side effect of `add` (the call to
    `this.printFunction`) is external I/O; it never touches the store and
    is not part of the state model.
-/

namespace JsLogger

/-- Universe of javascript values that can sit in a log-entry attribute:
strings, (integer) numbers, booleans, `null`, and `Date` objects whose
time value is `some t` (valid, `t` ms since epoch) or `none` (invalid). -/
inductive JsValue where
  | str : String → JsValue
  | num : Int → JsValue
  | bool : Bool → JsValue
  | null : JsValue
  | date : Option Int → JsValue
deriving DecidableEq, Repr

/-- Whether `typeof v === 'string'` holds. -/
def isStr : JsValue → Bool
  | .str _ => true
  | _ => false

/-- Whether the value is a `Date` object (the source tests
`typeof date.setMinutes === 'function'`; among the modelled values only
dates have a `setMinutes` method). -/
def isDateObj : JsValue → Bool
  | .date _ => true
  | _ => false

/-- Whether the value is a non-`Date`, non-`null` primitive (a plain
string, number or boolean): property access on such a value succeeds and
finds no `setMinutes` method. -/
def isPlainValue : JsValue → Bool
  | .str _ => true
  | .num _ => true
  | .bool _ => true
  | _ => false

/-- Left-pad the decimal rendering of `n` with zeros to `width` digits. -/
def padNum (width : Nat) (n : Nat) : String :=
  let s := toString n
  String.mk (List.replicate (width - s.length) '0') ++ s

/-- Year field of an ISO date string: four digits for years 0–9999,
the expanded six-digit signed form otherwise (ECMA-262 date format). -/
def padYear (y : Int) : String :=
  if 0 ≤ y ∧ y ≤ 9999 then padNum 4 y.toNat
  else if y < 0 then "-" ++ padNum 6 y.natAbs
  else "+" ++ padNum 6 y.toNat

/-- Convert a count of days since 1970-01-01 to a civil date
(year, month, day), proleptic Gregorian calendar. -/
def civilFromDays (z0 : Int) : Int × Nat × Nat :=
  let z := z0 + 719468
  let era := z.ediv 146097
  let doe := (z - era * 146097).toNat
  let yoe := (doe - doe / 1460 + doe / 36524 - doe / 146096) / 365
  let y := (yoe : Int) + era * 400
  let doy := doe - (365 * yoe + yoe / 4 - yoe / 100)
  let mp := (5 * doy + 2) / 153
  let d := doy - (153 * mp + 2) / 5 + 1
  let m := if mp < 10 then mp + 3 else mp - 9
  (if m ≤ 2 then y + 1 else y, m, d)

/-- Model of `Date.prototype.toISOString` on a valid time value `t`
(milliseconds since the epoch): `YYYY-MM-DDTHH:mm:ss.sssZ`. -/
def toISOString (t : Int) : String :=
  let days := t.ediv 86400000
  let msOfDay := (t.emod 86400000).toNat
  let ymd := civilFromDays days
  let hh := msOfDay / 3600000
  let mi := msOfDay % 3600000 / 60000
  let ss := msOfDay % 60000 / 1000
  let ms := msOfDay % 1000
  padYear ymd.1 ++ "-" ++ padNum 2 ymd.2.1 ++ "-" ++ padNum 2 ymd.2.2 ++
    "T" ++ padNum 2 hh ++ ":" ++ padNum 2 mi ++ ":" ++ padNum 2 ss ++
    "." ++ padNum 3 ms ++ "Z"

/-- Uppercasing of one character, ASCII range (the only characters the
logger's level literals contain). -/
def jsUpperChar (c : Char) : Char :=
  if 'a' ≤ c ∧ c ≤ 'z' then Char.ofNat (c.toNat - 32) else c

/-- Model of `String.prototype.toUpperCase` on the modelled strings. -/
def jsToUpper (s : String) : String :=
  String.mk (s.toList.map jsUpperChar)

/-- JSON escaping of one character (quotes, backslashes and the common
control characters; other characters render as themselves). -/
def escapeJsonChar (c : Char) : String :=
  if c = '"' then "\\\""
  else if c = '\\' then "\\\\"
  else if c = '\n' then "\\n"
  else if c = '\t' then "\\t"
  else if c = '\r' then "\\r"
  else String.singleton c

/-- JSON escaping of a string body. -/
def escapeJson (s : String) : String :=
  String.join (s.toList.map escapeJsonChar)

/-- Model of `JSON.stringify(v, null, 2)` on the modelled values.  On the
primitive values the indentation argument is irrelevant; a valid `Date`
serialises through `toJSON`/`toISOString` to a quoted ISO string and an
invalid one to `null`. -/
def jsonStringify : JsValue → String
  | .str s => "\"" ++ escapeJson s ++ "\""
  | .num n => toString n
  | .bool b => if b then "true" else "false"
  | .null => "null"
  | .date none => "null"
  | .date (some t) => "\"" ++ toISOString t ++ "\""

/-- Model of `jsLogger.dateToString( date, useCurrentTimezone )`, with the
process timezone offset (minutes, as returned by `getTimezoneOffset`)
passed explicitly.  The source returns `''` when `date` has no
`setMinutes` method, otherwise shifts the copy by `-getTimezoneOffset()`
minutes when `useCurrentTimezone` and returns `toISOString().slice(0,-1)`.
Accessing `.setMinutes` on `null` throws, and `toISOString` throws a
`RangeError` on an invalid date. -/
def dateToString (date : JsValue) (useCurrentTimezone : Bool) (tzOffset : Int) :
    Except String String :=
  match date with
  | .null => .error "TypeError: Cannot read properties of null (reading setMinutes)"
  | .date none => .error "RangeError: Invalid time value"
  | .date (some t) =>
      let t2 := if useCurrentTimezone then t - tzOffset * 60000 else t
      .ok ((toISOString t2).dropRight 1)
  | _ => .ok ""

/-- A log entry / javascript object: an association list of attributes.
Keys are unique in every object the source ever builds. -/
abbrev Entry := List (String × JsValue)

/-- Property lookup `e[k]` (first match). -/
def eGet : Entry → String → Option JsValue
  | [], _ => none
  | p :: rest, k => if p.1 == k then some p.2 else eGet rest k

/-- Property-existence test, `k in e`. -/
def eHas (e : Entry) (k : String) : Bool :=
  (eGet e k).isSome

/-- One step of the stringification loop in `formatLogEntry`: a value is
replaced by `JSON.stringify(value, null, 2)` when it is not a string and
its key is not `'timestamp'`. -/
def stringifyVal (k : String) (v : JsValue) : JsValue :=
  if !isStr v && k != "timestamp" then .str (jsonStringify v) else v

/-- The stringified copy `logEntryCopy` built by `formatLogEntry`. -/
def stringifyCopy (e : Entry) : Entry :=
  e.map (fun p => (p.1, stringifyVal p.1 p.2))

/-- Model of `jsLogger.prototype.formatLogEntry`.  With the three required
attributes present it renders the copy as
`dateToString(ts, true) ++ " [" ++ level.toUpperCase() ++ "] : " ++ message`;
otherwise it returns `''`.  The fallback match arm is dead code: the copy
preserves keys, and stringification guarantees that the `level` and
`message` attributes of the copy are strings. -/
def formatLogEntry (tzOffset : Int) (e : Entry) : Except String String :=
  if eHas e "timestamp" && eHas e "message" && eHas e "level" then
    let c := stringifyCopy e
    match eGet c "timestamp", eGet c "level", eGet c "message" with
    | some tv, some (.str lv), some (.str mv) =>
        (dateToString tv true tzOffset).map
          (fun d => d ++ " [" ++ jsToUpper lv ++ "] : " ++ mv)
    | _, _, _ => .ok ""
  else .ok ""

/-- The `this.timeTracking` javascript `Array` used as a string-keyed map:
its named own properties (`entries`, insertion order) plus its always-own
`length` property. -/
structure TimeTracking where
  entries : List (String × Int)
  len : Nat
deriving DecidableEq, Repr

/-- Numeric value of a digit string. -/
def digitsToNat (cs : List Char) : Nat :=
  cs.foldl (fun acc c => acc * 10 + (c.toNat - 48)) 0

/-- Whether `s` is a canonical array-index string (`'0'`, `'1'`, …,
below 2^32 - 1): assigning such a key to an array bumps `length`. -/
def isCanonicalIndex (s : String) : Bool :=
  !s.data.isEmpty && s.data.all Char.isDigit &&
    (s.data == ['0'] || !(s.data.headD '0' == '0')) &&
    digitsToNat s.data < 4294967295

/-- Lookup among the named entries (ignoring the `length` property). -/
def ttGetEntries (tt : TimeTracking) (name : String) : Option Int :=
  (tt.entries.find? (fun p => p.1 == name)).map (fun p => p.2)

/-- Model of the guard expression `this.timeTracking.hasOwnProperty( name )`.
The method lookup itself goes through the array's own properties first: once
a timer has been stored under the key `'hasOwnProperty'`, that own data
property (a number) shadows the inherited method and the call throws a
`TypeError`.  Otherwise the inherited method answers whether `name` is an
own property: a stored key, or `'length'`, an own property of any array. -/
def ttHasOwnProperty (tt : TimeTracking) (name : String) : Except String Bool :=
  if tt.entries.any (fun p => p.1 == "hasOwnProperty") then
    .error "TypeError: this.timeTracking.hasOwnProperty is not a function"
  else
    .ok (name == "length" || tt.entries.any (fun p => p.1 == name))

/-- Model of reading `this.timeTracking[ name ]`: the `length` property
reads back the array length, other keys read their stored value. -/
def ttGet (tt : TimeTracking) (name : String) : Option Int :=
  if name == "length" then some (Int.ofNat tt.len) else ttGetEntries tt name

/-- Model of the assignment `this.timeTracking[ name ] = v`: overwrite or
append the keyed entry; a canonical index key grows `length`.  (The source
only ever reaches this with keys that are not yet present and never with
the key `'length'`, which `hasOwnProperty` always reports as present.) -/
def ttSet (tt : TimeTracking) (name : String) (v : Int) : TimeTracking :=
  let entries :=
    if tt.entries.any (fun p => p.1 == name) then
      tt.entries.map (fun p => if p.1 == name then (name, v) else p)
    else tt.entries ++ [(name, v)]
  let n := tt.len.max (if isCanonicalIndex name then digitsToNat name.data + 1 else 0)
  ⟨entries, n⟩

/-- Model of `delete this.timeTracking[ name ]`: removes the named entry.
Array `length` is never reduced by `delete`; deleting the
non-configurable `length` property itself fails silently (the entry list
never contains the key `'length'`, so the filter is a no-op there). -/
def ttDelete (tt : TimeTracking) (name : String) : TimeTracking :=
  ⟨tt.entries.filter (fun p => !(p.1 == name)), tt.len⟩

/-- The mutable store of one `jsLogger` instance: the incremental log and
the time-tracking array.  (The print configuration does not affect the
store and is not modelled.) -/
structure LoggerState where
  log : List Entry
  timeTracking : TimeTracking
deriving DecidableEq, Repr

/-- The store of a freshly constructed logger: empty log, empty array. -/
def freshLogger : LoggerState :=
  ⟨[], ⟨[], 0⟩⟩

/-- Model of `jsLogger.prototype.add( message, level )` at clock reading
`now`: `level` defaults to `'debug'` when `undefined`; the entry
`{timestamp, message, level}` is pushed onto the log and returned. -/
def add (st : LoggerState) (now : Int) (message : JsValue) (level : Option JsValue) :
    Entry × LoggerState :=
  let lvl := level.getD (JsValue.str "debug")
  let logEntry : Entry :=
    [("timestamp", JsValue.date (some now)), ("message", message), ("level", lvl)]
  (logEntry, { st with log := st.log ++ [logEntry] })

/-- Model of `jsLogger.prototype.info`. -/
def info (st : LoggerState) (now : Int) (message : JsValue) : Entry × LoggerState :=
  add st now message (some (JsValue.str "info"))

/-- Model of `jsLogger.prototype.debug`. -/
def debug (st : LoggerState) (now : Int) (message : JsValue) : Entry × LoggerState :=
  add st now message (some (JsValue.str "debug"))

/-- Model of `jsLogger.prototype.warning`. -/
def warning (st : LoggerState) (now : Int) (message : JsValue) : Entry × LoggerState :=
  add st now message (some (JsValue.str "warning"))

/-- Model of `jsLogger.prototype.error`. -/
def error (st : LoggerState) (now : Int) (message : JsValue) : Entry × LoggerState :=
  add st now message (some (JsValue.str "error"))

/-- Model of `jsLogger.prototype.time( name )` at clock reading `now`:
when `hasOwnProperty( name )` evaluates to false, store `now` under
`name` and return the value read back from the array; when it evaluates
to true return `false` (modelled as `none`); and when the guard itself
throws (shadowed `hasOwnProperty`), the exception propagates. -/
def time (st : LoggerState) (now : Int) (name : String) :
    Except String (Option Int × LoggerState) :=
  match ttHasOwnProperty st.timeTracking name with
  | .error e => .error e
  | .ok true => .ok (none, st)
  | .ok false =>
      let tt := ttSet st.timeTracking name now
      .ok (ttGet tt name, { st with timeTracking := tt })

/-- Decimal rendering of the javascript number `delta / 1000` (`delta` an
integer count of milliseconds): the shortest decimal form, i.e. the whole
part, then up to three fractional digits with trailing zeros dropped. -/
def elapsedString (delta : Int) : String :=
  let n := delta.natAbs
  let r := n % 1000
  let frac :=
    if r % 10 ≠ 0 then padNum 3 r
    else if r % 100 ≠ 0 then padNum 2 (r / 10)
    else toString (r / 100)
  let core :=
    if r = 0 then toString (n / 1000) else toString (n / 1000) ++ "." ++ frac
  if delta < 0 then "-" ++ core else core

/-- Model of `jsLogger.prototype.timeEnd( name )` at clock reading `now`:
when `hasOwnProperty( name )` evaluates to true, read the start value,
compute `(now - start) / 1000` seconds, delete the key, `add` a
default-level entry reporting the elapsed time, and return the elapsed
seconds; when it evaluates to false return `false` (modelled as `none`);
and when the guard itself throws (shadowed `hasOwnProperty`), the
exception propagates.  The inner fallback arm is dead code: a true guard
implies the read succeeds. -/
def timeEnd (st : LoggerState) (now : Int) (name : String) :
    Except String (Option ℚ × LoggerState) :=
  match ttHasOwnProperty st.timeTracking name with
  | .error e => .error e
  | .ok true =>
      match ttGet st.timeTracking name with
      | some start =>
          let elapsed : ℚ := ((now - start : Int) : ℚ) / 1000
          let st1 : LoggerState := { st with timeTracking := ttDelete st.timeTracking name }
          let msg := JsValue.str ("'" ++ name ++ "' took " ++ elapsedString (now - start) ++ " seconds")
          .ok (some elapsed, (add st1 now msg none).2)
      | none => .ok (none, st)
  | .ok false => .ok (none, st)

/-- Model of `jsLogger.prototype.dumpToString`'s loop: fold the formatter
over the stored entries, appending a newline after each line; a formatter
exception propagates. -/
def dumpLoop (tzOffset : Int) : List Entry → String → Except String String
  | [], acc => .ok acc
  | e :: rest, acc =>
      match formatLogEntry tzOffset e with
      | .ok line => dumpLoop tzOffset rest (acc ++ line ++ "\n")
      | .error er => .error er

/-- Model of `jsLogger.prototype.dumpToString`. -/
def dumpToString (tzOffset : Int) (st : LoggerState) : Except String String :=
  dumpLoop tzOffset st.log ""

/-- One call to a leveled convenience method, carrying the clock reading
at which it is made and the message passed. -/
inductive LogCall where
  | info (now : Int) (message : JsValue)
  | debug (now : Int) (message : JsValue)
  | warning (now : Int) (message : JsValue)
  | error (now : Int) (message : JsValue)
deriving DecidableEq, Repr

/-- The level literal fixed by each convenience method. -/
def callLevel : LogCall → String
  | .info _ _ => "info"
  | .debug _ _ => "debug"
  | .warning _ _ => "warning"
  | .error _ _ => "error"

/-- The clock reading of a call. -/
def callNow : LogCall → Int
  | .info t _ => t
  | .debug t _ => t
  | .warning t _ => t
  | .error t _ => t

/-- The message of a call. -/
def callMsg : LogCall → JsValue
  | .info _ m => m
  | .debug _ m => m
  | .warning _ m => m
  | .error _ m => m

/-- Dispatch one leveled call on the store. -/
def callStep (st : LoggerState) : LogCall → Entry × LoggerState
  | .info t m => info st t m
  | .debug t m => debug st t m
  | .warning t m => warning st t m
  | .error t m => error st t m

/-- Run a sequence of leveled calls, collecting the returned entries. -/
def runCalls (st : LoggerState) : List LogCall → List Entry × LoggerState
  | [] => ([], st)
  | c :: rest =>
      let r := callStep st c
      let rr := runCalls r.2 rest
      (r.1 :: rr.1, rr.2)

/-- The log entry a leveled call constructs (via `add`). -/
def mkCallEntry (c : LogCall) : Entry :=
  [("timestamp", JsValue.date (some (callNow c))), ("message", callMsg c),
   ("level", JsValue.str (callLevel c))]

/-- The display string of a message attribute after stringification:
strings pass through, any other value is JSON-serialised. -/
def displayString (v : JsValue) : String :=
  match v with
  | .str s => s
  | v => jsonStringify v

/-- Concatenation of a list of lines, each followed by a newline — the
shape of the string `dumpToString` accumulates. -/
def joinLines (ls : List String) : String :=
  ls.foldr (fun s acc => s ++ "\n" ++ acc) ""

/-! Helper lemmas shared by the specification theorems. -/

theorem eGet_stringifyCopy (e : Entry) (k : String) :
    eGet (stringifyCopy e) k = (eGet e k).map (stringifyVal k) := by
  induction e with
  | nil => rfl
  | cons p rest ih =>
      simp only [stringifyCopy, List.map_cons, eGet]
      by_cases h : p.1 == k
      · have hk : p.1 = k := by simpa using h
        subst hk
        simp [h]
      · simp only [h, if_neg, Bool.false_eq_true, not_false_iff, if_false]
        exact ih

theorem callStep_eq (st : LoggerState) (c : LogCall) :
    callStep st c = (mkCallEntry c, { st with log := st.log ++ [mkCallEntry c] }) := by
  cases c <;> rfl

theorem runCalls_eq (cs : List LogCall) : ∀ st : LoggerState,
    runCalls st cs = (cs.map mkCallEntry, { st with log := st.log ++ cs.map mkCallEntry }) := by
  induction cs with
  | nil => intro st; simp [runCalls]
  | cons c rest ih =>
      intro st
      simp [runCalls, callStep_eq, ih, List.append_assoc]

theorem dumpLoop_eq_mapM (tz : Int) (l : List Entry) : ∀ acc : String,
    dumpLoop tz l acc =
      (l.mapM (formatLogEntry tz)).map (fun ls => acc ++ joinLines ls) := by
  induction l with
  | nil =>
      intro acc
      rw [List.mapM_nil]
      show Except.ok acc = Except.ok (acc ++ joinLines [])
      simp [joinLines]
  | cons e rest ih =>
      intro acc
      rw [List.mapM_cons]
      cases hfe : formatLogEntry tz e with
      | error er =>
          simp only [dumpLoop, hfe]
          rfl
      | ok line =>
          simp only [dumpLoop, hfe, ih]
          cases hrm : rest.mapM (formatLogEntry tz) with
          | error er2 => rfl
          | ok ls =>
              show Except.ok (acc ++ line ++ "\n" ++ joinLines ls) =
                Except.ok (acc ++ joinLines (line :: ls))
              simp [joinLines, String.append_assoc]

/-! Specification theorems. -/

/-- C1: every sequence of `info`/`debug`/`warning`/`error` calls appends
exactly one entry per call to the store, in call order, each entry's
`level` attribute being the literal matching the method invoked, and each
method returns the very entry `add` appended. -/
theorem spec_level_methods_in_order (st : LoggerState) (cs : List LogCall) :
    (runCalls st cs).2.log = st.log ++ cs.map mkCallEntry ∧
    (runCalls st cs).1 = cs.map mkCallEntry ∧
    ∀ c : LogCall, eGet (mkCallEntry c) "level" = some (JsValue.str (callLevel c)) := by
  refine ⟨?_, ?_, ?_⟩
  · rw [runCalls_eq]
  · rw [runCalls_eq]
  · intro c; cases c <;> rfl

/-- C3 (failing input): the source keeps `timeTracking` as a javascript
`Array`, whose own property `length` makes `hasOwnProperty('length')`
true on a fresh logger; so `time('length')`, contrary to the claim and to
the method's own doc comment, returns `false` and records nothing even
though no timer named `length` is active. -/
theorem bug_time_length_rejected :
    time freshLogger 5 "length" = .ok (none, freshLogger) := rfl

/-- C4 (failing input): `timeEnd('length')` on a fresh logger, where no
timer named `length` was ever started, does not return `false`: the
`hasOwnProperty` guard passes, the array's `length` value `0` is used as
the start time, an entry is appended, and `(7 - 0) / 1000` seconds is
returned. -/
theorem bug_timeEnd_length_not_noop :
    timeEnd freshLogger 7 "length" =
      .ok (some ((7 : ℚ) / 1000),
        { log := [[("timestamp", JsValue.date (some 7)),
                   ("message", JsValue.str "'length' took 0.007 seconds"),
                   ("level", JsValue.str "debug")]],
          timeTracking := { entries := [], len := 0 } }) := by
  refine congrArg Except.ok (Prod.ext ?_ ?_)
  · norm_num [freshLogger]
  · decide

/-- C5 (failing input): a first `time('hasOwnProperty')` succeeds — the
inherited method is still visible at guard time — and stores a number
under the own key `'hasOwnProperty'`, shadowing the method; a second
`time('hasOwnProperty')` on that reachable store then throws a
`TypeError` at the guard's method lookup instead of returning `false`
and leaving the store unchanged, contrary to the claim and to the
method's own doc comment. -/
theorem bug_time_hasOwnProperty_throws :
    time freshLogger 3 "hasOwnProperty" =
      .ok (some 3, ⟨[], ⟨[("hasOwnProperty", 3)], 0⟩⟩) ∧
    time ⟨[], ⟨[("hasOwnProperty", 3)], 0⟩⟩ 9 "hasOwnProperty" =
      .error "TypeError: this.timeTracking.hasOwnProperty is not a function" :=
  ⟨congrArg Except.ok (by decide), rfl⟩

/-- C2 (failing input): with an active timer named `'hasOwnProperty'` —
reachable by a single successful `time('hasOwnProperty')`, whose stored
number shadows the inherited method — `timeEnd('hasOwnProperty')` throws
a `TypeError` at the guard's method lookup: it computes no elapsed time,
removes nothing and appends nothing, contrary to the claim and to the
method's own doc comment. -/
theorem bug_timeEnd_hasOwnProperty_throws :
    time freshLogger 2 "hasOwnProperty" =
      .ok (some 2, ⟨[], ⟨[("hasOwnProperty", 2)], 0⟩⟩) ∧
    timeEnd ⟨[], ⟨[("hasOwnProperty", 2)], 0⟩⟩ 52 "hasOwnProperty" =
      .error "TypeError: this.timeTracking.hasOwnProperty is not a function" :=
  ⟨congrArg Except.ok (by decide), rfl⟩

/-- C7: `formatLogEntry` on an object lacking any of the attributes
`timestamp`, `message`, `level` returns the empty string (and throws
nothing). -/
theorem spec_formatLogEntry_incomplete (tz : Int) (e : Entry)
    (h : eGet e "timestamp" = none ∨ eGet e "message" = none ∨ eGet e "level" = none) :
    formatLogEntry tz e = .ok "" := by
  rcases h with h | h | h <;> simp [formatLogEntry, eHas, h]

/-- C7 witness: an entry with a timestamp and a message but no `level`
attribute formats to the empty string. -/
theorem spec_formatLogEntry_incomplete_witness :
    formatLogEntry 0 [("timestamp", JsValue.date (some 0)), ("message", JsValue.str "m")] =
      .ok "" :=
  spec_formatLogEntry_incomplete 0 _ (Or.inr (Or.inr rfl))

/-- C9 (counterexample): an invalid `Date` object (`NaN` time value)
passes the `typeof date.setMinutes` guard, and `toISOString` then throws
a `RangeError` — `dateToString` does not return the empty string on every
invalid point-in-time value. -/
theorem cex_dateToString_invalid_date :
    dateToString (JsValue.date none) true 0 = .error "RangeError: Invalid time value" ∧
    dateToString (JsValue.date none) true 0 ≠ .ok "" :=
  ⟨rfl, fun h => by simp [dateToString] at h⟩

/-- C9 (amended): on every plain non-`Date` primitive value (a string,
number or boolean — anything whose `setMinutes` access yields a
non-function without throwing), `dateToString` returns the empty string. -/
theorem spec_dateToString_non_date (v : JsValue) (u : Bool) (tz : Int)
    (h : isPlainValue v = true) : dateToString v u tz = .ok "" := by
  cases v <;> simp_all [isPlainValue, dateToString]

/-- C9 witness: the plain number 5 is not a point-in-time value, and
`dateToString` maps it to the empty string. -/
theorem spec_dateToString_non_date_witness :
    dateToString (JsValue.num 5) true 0 = .ok "" :=
  spec_dateToString_non_date (JsValue.num 5) true 0 rfl

/-- C6: on an entry carrying a (valid) timestamp, a string level and any
message, `formatLogEntry` renders the timestamp through `dateToString`
(never through the JSON serialiser), then a space, a bracketed
upper-cased level, the separator, and the message — the message being
JSON-serialised first when it is not a string. -/
theorem spec_formatLogEntry_complete (tz t : Int) (e : Entry) (l : String) (m : JsValue)
    (ht : eGet e "timestamp" = some (JsValue.date (some t)))
    (hl : eGet e "level" = some (JsValue.str l))
    (hm : eGet e "message" = some m) :
    formatLogEntry tz e =
      (dateToString (JsValue.date (some t)) true tz).map
        (fun d => d ++ " [" ++ jsToUpper l ++ "] : " ++ displayString m) := by
  have hcond : (eHas e "timestamp" && eHas e "message" && eHas e "level") = true := by
    simp [eHas, ht, hl, hm]
  have h1 : stringifyVal "timestamp" (JsValue.date (some t)) = JsValue.date (some t) := rfl
  have h2 : stringifyVal "level" (JsValue.str l) = JsValue.str l := rfl
  have h3 : stringifyVal "message" m = JsValue.str (displayString m) := by
    cases m <;> rfl
  simp only [formatLogEntry, hcond, if_true, eGet_stringifyCopy, ht, hl, hm,
    Option.map_some', h1, h2, h3]

/-- C6 witness: the entry `{timestamp: epoch, level: 'info', message: 'm'}`
formats (UTC offset 0) to a string beginning with the ISO-like rendering
of the timestamp and ending in `[INFO] : m`. -/
theorem spec_formatLogEntry_complete_witness :
    formatLogEntry 0 [("timestamp", JsValue.date (some 0)), ("message", JsValue.str "m"),
      ("level", JsValue.str "info")] = .ok "1970-01-01T00:00:00.000 [INFO] : m" := by
  have h := spec_formatLogEntry_complete 0 0
    [("timestamp", JsValue.date (some 0)), ("message", JsValue.str "m"),
     ("level", JsValue.str "info")] "info" (JsValue.str "m") rfl rfl rfl
  rw [h]
  exact congrArg Except.ok (by decide)

/-- C10 (implicit): on a complete entry whose level is not a string, the
level is JSON-serialised and then upper-cased in the rendered line (so a
numeric level 5 renders as `[5]` rather than failing), and the
stringified copy applies the same JSON serialisation to every non-string
attribute except `timestamp`. -/
theorem spec_formatLogEntry_nonstring_attrs (tz t : Int) (e : Entry) (lv m : JsValue)
    (ht : eGet e "timestamp" = some (JsValue.date (some t)))
    (hl : eGet e "level" = some lv) (hns : isStr lv = false)
    (hm : eGet e "message" = some m) :
    formatLogEntry tz e =
      (dateToString (JsValue.date (some t)) true tz).map
        (fun d => d ++ " [" ++ jsToUpper (jsonStringify lv) ++ "] : " ++ displayString m) ∧
    ∀ k v, eGet e k = some v → k ≠ "timestamp" → isStr v = false →
      eGet (stringifyCopy e) k = some (JsValue.str (jsonStringify v)) := by
  constructor
  · have hcond : (eHas e "timestamp" && eHas e "message" && eHas e "level") = true := by
      simp [eHas, ht, hl, hm]
    have h1 : stringifyVal "timestamp" (JsValue.date (some t)) = JsValue.date (some t) := rfl
    have h2 : stringifyVal "level" lv = JsValue.str (jsonStringify lv) := by
      simp [stringifyVal, hns]
    have h3 : stringifyVal "message" m = JsValue.str (displayString m) := by
      cases m <;> rfl
    simp only [formatLogEntry, hcond, if_true, eGet_stringifyCopy, ht, hl, hm,
      Option.map_some', h1, h2, h3]
  · intro k v hv hk hnv
    rw [eGet_stringifyCopy, hv, Option.map_some']
    simp [stringifyVal, hnv, hk]

/-- C10 witness: an entry with numeric level 5 renders with `[5]`, and the
copy holds the serialised level string `"5"`. -/
theorem spec_formatLogEntry_nonstring_attrs_witness :
    formatLogEntry 0 [("timestamp", JsValue.date (some 0)), ("message", JsValue.str "m"),
      ("level", JsValue.num 5)] = .ok "1970-01-01T00:00:00.000 [5] : m" ∧
    eGet (stringifyCopy [("timestamp", JsValue.date (some 0)), ("message", JsValue.str "m"),
      ("level", JsValue.num 5)]) "level" = some (JsValue.str "5") := by
  have h := spec_formatLogEntry_nonstring_attrs 0 0
    [("timestamp", JsValue.date (some 0)), ("message", JsValue.str "m"),
     ("level", JsValue.num 5)] (JsValue.num 5) (JsValue.str "m") rfl rfl rfl rfl
  refine ⟨?_, ?_⟩
  · rw [h.1]
    exact congrArg Except.ok (by decide)
  · rw [h.2 "level" (JsValue.num 5) rfl (by decide) rfl]
    decide

/-- C8: `dumpToString` renders the store by concatenating, in store
insertion order, the formatted form of each entry followed by a newline;
being a pure function of the store, repeated calls on the same store
return the same string and no state changes. -/
theorem spec_dumpToString_concat (tz : Int) (st : LoggerState) :
    dumpToString tz st = (st.log.mapM (formatLogEntry tz)).map joinLines := by
  rw [dumpToString, dumpLoop_eq_mapM]
  cases h : st.log.mapM (formatLogEntry tz) with
  | error er => rfl
  | ok ls => simp

end JsLogger
